/-
Verification of the AgenC operator core (operator-core crate) against its
natural-language specification.

Shallow embedding conventions:
* Rust f64 amounts (SOL amounts, token display amounts, jitter factors) are
  modelled as exact rationals (ℚ).  A Rust float-to-u64 cast (which truncates
  toward zero and saturates at 0 for negative values) is modelled as
  Int.toNat of the floor.
* Byte buffers are modelled as List ℕ; little-endian integer fields are
  decoded positionally.
* u64 counters (session spending lamports) are modelled as ℕ.
* Fallible Rust functions returning anyhow::Result are modelled as
  Except String.
* The retry loops are modelled as fuel-based recursion over a function
  giving the RPC outcome of each attempt; sleeps are recorded explicitly
  in the returned trace.
* Solana Pubkeys are modelled by their 32 raw bytes (List ℕ); the base58
  string rendering used for display is elided (it is injective, so keying
  a map by the string is keying by the pubkey).  Cache keys are kept
  generic in a type with lawful boolean equality.
-/
import Mathlib

set_option linter.unusedVariables false
set_option linter.unusedSectionVars false
set_option maxRecDepth 8000

namespace AgenC

/-! ## Policy gate (src/crates/operator-core/src/policy_gate.rs) -/

/-- Confirmation strength, from types.rs ConfirmationType. -/
inductive ConfirmationType where
  | None
  | Verbal
  | Typed
  | Hardware
  deriving DecidableEq, Repr

/-- Intent actions, from types.rs IntentAction. -/
inductive IntentAction where
  | CreateTask
  | ClaimTask
  | CompleteTask
  | CancelTask
  | ListOpenTasks
  | GetTaskStatus
  | GetBalance
  | GetAddress
  | GetProtocolState
  | CodeFix
  | CodeReview
  | CodeGenerate
  | CodeExplain
  | SwapTokens
  | GetSwapQuote
  | GetTokenPrice
  | PostTweet
  | PostThread
  | PostDiscord
  | PostDiscordEmbed
  | SendEmail
  | SendBulkEmail
  | GenerateImage
  | CreateGist
  | CreateGitHubIssue
  | AddGitHubComment
  | TriggerGitHubWorkflow
  | Help
  | Unknown
  deriving DecidableEq, Repr

/-- The lowercased Debug rendering of an action, as produced by
format of the action followed by to_lowercase in check_policy. -/
def IntentAction.debugLower : IntentAction → String
  | .CreateTask => "createtask"
  | .ClaimTask => "claimtask"
  | .CompleteTask => "completetask"
  | .CancelTask => "canceltask"
  | .ListOpenTasks => "listopentasks"
  | .GetTaskStatus => "gettaskstatus"
  | .GetBalance => "getbalance"
  | .GetAddress => "getaddress"
  | .GetProtocolState => "getprotocolstate"
  | .CodeFix => "codefix"
  | .CodeReview => "codereview"
  | .CodeGenerate => "codegenerate"
  | .CodeExplain => "codeexplain"
  | .SwapTokens => "swaptokens"
  | .GetSwapQuote => "getswapquote"
  | .GetTokenPrice => "gettokenprice"
  | .PostTweet => "posttweet"
  | .PostThread => "postthread"
  | .PostDiscord => "postdiscord"
  | .PostDiscordEmbed => "postdiscordembed"
  | .SendEmail => "sendemail"
  | .SendBulkEmail => "sendbulkemail"
  | .GenerateImage => "generateimage"
  | .CreateGist => "creategist"
  | .CreateGitHubIssue => "creategithubissue"
  | .AddGitHubComment => "addgithubcomment"
  | .TriggerGitHubWorkflow => "triggergithubworkflow"
  | .Help => "help"
  | .Unknown => "unknown"

/-- The JSON params of a voice intent, restricted to the three fields
extract_sol_amount reads (reward_sol and amount_sol as f64, lamports as u64). -/
structure IntentParams where
  reward_sol : Option ℚ
  amount_sol : Option ℚ
  lamports : Option ℕ
  deriving DecidableEq, Repr

/-- A voice intent (types.rs VoiceIntent); the raw transcript is irrelevant
to the policy gate and elided. -/
structure VoiceIntent where
  action : IntentAction
  params : IntentParams
  deriving DecidableEq, Repr

/-- Policy configuration (policy_gate.rs PolicyConfig). -/
structure PolicyConfig where
  allow_voice_only_small : Bool
  voice_only_max_sol : ℚ
  always_require_typed : Bool
  hardware_for_large : Bool
  large_threshold_sol : ℚ
  blocked_actions : List String
  deriving DecidableEq, Repr

/-- Spending threshold in SOL that requires extra confirmation. -/
def HIGH_VALUE_THRESHOLD_SOL : ℚ := 1

/-- Maximum spend per session without hardware confirmation. -/
def SESSION_LIMIT_SOL : ℚ := 10

/-- Default policy configuration. -/
def PolicyConfig.default : PolicyConfig where
  allow_voice_only_small := true
  voice_only_max_sol := 1/10
  always_require_typed := false
  hardware_for_large := true
  large_threshold_sol := HIGH_VALUE_THRESHOLD_SOL
  blocked_actions := ["export_key"]

/-- Policy gate state (policy_gate.rs PolicyGate). -/
structure PolicyGate where
  session_spending_lamports : ℕ
  hardware_wallet_connected : Bool
  config : PolicyConfig
  deriving DecidableEq, Repr

/-- PolicyGate::new. -/
def PolicyGate.new : PolicyGate where
  session_spending_lamports := 0
  hardware_wallet_connected := false
  config := PolicyConfig.default

/-- Result of a policy check (types.rs PolicyCheck). -/
structure PolicyCheck where
  allowed : Bool
  requires_confirmation : Bool
  confirmation_type : ConfirmationType
  reason : String
  deriving DecidableEq, Repr

/-- Rust cast of an f64 to u64: truncation toward zero, saturating at 0
for negative values (here on an exact rational). -/
def ratToU64 (q : ℚ) : ℕ := (⌊q⌋).toNat

/-- PolicyGate::extract_sol_amount: try reward_sol, then amount_sol,
then lamports divided by 1e9, defaulting to 0. -/
def PolicyGate.extract_sol_amount (p : IntentParams) : ℚ :=
  match p.reward_sol with
  | some sol => sol
  | none =>
    match p.amount_sol with
    | some sol => sol
    | none =>
      match p.lamports with
      | some lam => (lam : ℚ) / 1000000000
      | none => 0

/-- PolicyGate::check_spending_action. -/
def PolicyGate.check_spending_action (g : PolicyGate) (intent : VoiceIntent)
    (action_name : String) : PolicyCheck :=
  let amount_sol := PolicyGate.extract_sol_amount intent.params
  let new_session_total : ℕ :=
    g.session_spending_lamports + ratToU64 (amount_sol * 1000000000)
  let session_total_sol : ℚ := (new_session_total : ℚ) / 1000000000
  if session_total_sol > SESSION_LIMIT_SOL ∧ ¬ g.hardware_wallet_connected then
    { allowed := false
      requires_confirmation := true
      confirmation_type := .Hardware
      reason := "Session limit (" ++ toString SESSION_LIMIT_SOL
        ++ " SOL) exceeded. Connect hardware wallet." }
  else if amount_sol ≤ g.config.voice_only_max_sol ∧ g.config.allow_voice_only_small then
    { allowed := true
      requires_confirmation := true
      confirmation_type := .Verbal
      reason := action_name ++ " (" ++ toString amount_sol ++ " SOL) - voice confirmation" }
  else if amount_sol > g.config.large_threshold_sol ∧ g.config.hardware_for_large then
    if g.hardware_wallet_connected then
      { allowed := true
        requires_confirmation := true
        confirmation_type := .Hardware
        reason := action_name ++ " (" ++ toString amount_sol
          ++ " SOL) - hardware confirmation required" }
    else
      { allowed := true
        requires_confirmation := true
        confirmation_type := .Typed
        reason := action_name ++ " (" ++ toString amount_sol
          ++ " SOL) - typed confirmation (connect hardware for large txs)" }
  else
    { allowed := true
      requires_confirmation := true
      confirmation_type :=
        if g.config.always_require_typed then .Typed else .Verbal
      reason := action_name ++ " (" ++ toString amount_sol ++ " SOL)" }

/-- PolicyGate::check_policy. -/
def PolicyGate.check_policy (g : PolicyGate) (intent : VoiceIntent) : PolicyCheck :=
  let action_name := intent.action.debugLower
  if action_name ∈ g.config.blocked_actions then
    { allowed := false
      requires_confirmation := false
      confirmation_type := .None
      reason := "Action " ++ action_name ++ " is blocked by policy" }
  else
    match intent.action with
    | .ListOpenTasks | .GetTaskStatus | .GetBalance | .GetAddress
    | .GetProtocolState | .Help | .Unknown =>
      { allowed := true
        requires_confirmation := false
        confirmation_type := .None
        reason := "Read-only operation" }
    | .CreateTask => g.check_spending_action intent "create task"
    | .ClaimTask =>
      { allowed := true
        requires_confirmation := true
        confirmation_type := .Verbal
        reason := "Claiming task requires verbal confirmation" }
    | .CompleteTask =>
      { allowed := true
        requires_confirmation := true
        confirmation_type := .Verbal
        reason := "Completing task requires verbal confirmation" }
    | .CancelTask =>
      { allowed := true
        requires_confirmation := true
        confirmation_type := .Typed
        reason := "Cancelling task requires typed confirmation" }
    | .CodeFix | .CodeReview | .CodeGenerate | .CodeExplain =>
      { allowed := true
        requires_confirmation := false
        confirmation_type := .None
        reason := "Code operation (Pro tier required)" }
    | .GetSwapQuote | .GetTokenPrice =>
      { allowed := true
        requires_confirmation := false
        confirmation_type := .None
        reason := "Read-only trading operation" }
    | .SwapTokens => g.check_spending_action intent "token swap"
    | .PostTweet =>
      { allowed := true
        requires_confirmation := true
        confirmation_type := .Verbal
        reason := "Tweet posting requires verbal confirmation" }
    | .PostThread =>
      { allowed := true
        requires_confirmation := true
        confirmation_type := .Verbal
        reason := "Thread posting requires verbal confirmation" }
    | .PostDiscord | .PostDiscordEmbed =>
      { allowed := true
        requires_confirmation := true
        confirmation_type := .Verbal
        reason := "Discord posting requires verbal confirmation" }
    | .SendEmail =>
      { allowed := true
        requires_confirmation := true
        confirmation_type := .Verbal
        reason := "Email sending requires verbal confirmation" }
    | .SendBulkEmail =>
      { allowed := true
        requires_confirmation := true
        confirmation_type := .Typed
        reason := "Bulk email sending requires typed confirmation" }
    | .GenerateImage =>
      { allowed := true
        requires_confirmation := false
        confirmation_type := .None
        reason := "Image generation (Pro tier required)" }
    | .CreateGist | .CreateGitHubIssue | .AddGitHubComment | .TriggerGitHubWorkflow =>
      { allowed := true
        requires_confirmation := true
        confirmation_type := .Verbal
        reason := "GitHub operation requires verbal confirmation" }

/-- PolicyGate::record_spending. -/
def PolicyGate.record_spending (g : PolicyGate) (lamports : ℕ) : PolicyGate :=
  { g with session_spending_lamports := g.session_spending_lamports + lamports }

/-- PolicyGate::reset_session. -/
def PolicyGate.reset_session (g : PolicyGate) : PolicyGate :=
  { g with session_spending_lamports := 0 }

/-- PolicyGate::set_hardware_wallet. -/
def PolicyGate.set_hardware_wallet (g : PolicyGate) (connected : Bool) : PolicyGate :=
  { g with hardware_wallet_connected := connected }

/-- PolicyGate::update_config. -/
def PolicyGate.update_config (g : PolicyGate) (c : PolicyConfig) : PolicyGate :=
  { g with config := c }

/-- The mutating entry points of PolicyGate, together with the read-only
check_policy (whose receiver is a shared reference in the source, hence
leaves the state unchanged). -/
inductive GateOp where
  | checkPolicy (intent : VoiceIntent)
  | recordSpending (lamports : ℕ)
  | resetSession
  | setHardwareWallet (connected : Bool)
  | updateConfig (c : PolicyConfig)

/-- State transition of a PolicyGate under one operation.  checkPolicy
borrows the gate immutably (fn check_policy of a shared self reference),
so its state transition is the identity. -/
def gateStep (g : PolicyGate) : GateOp → PolicyGate
  | .checkPolicy _ => g
  | .recordSpending lamports => g.record_spending lamports
  | .resetSession => g.reset_session
  | .setHardwareWallet b => g.set_hardware_wallet b
  | .updateConfig c => g.update_config c

/-! ## Transaction retry (src/crates/operator-core/src/transaction_retry.rs) -/

/-- Boolean test for one character sequence occurring inside another
(Rust str::contains with a string pattern). -/
def seqContains [BEq α] (needle : List α) : List α → Bool
  | [] => needle.isEmpty
  | a :: as => needle.isPrefixOf (a :: as) || seqContains needle as

/-- Substring test on strings after the error text has been lowercased.
Rust to_lowercase is modelled by mapping Char.toLower over the characters,
which agrees with it on ASCII (all the matched phrases are ASCII). -/
def lowerContains (s : String) (needle : String) : Bool :=
  seqContains needle.data (s.data.map Char.toLower)

/-- Error classification for retry decisions (transaction_retry.rs ErrorKind). -/
inductive ErrorKind where
  | Retryable
  | Permanent
  | BlockhashExpired
  | RateLimited
  deriving DecidableEq, Repr

/-- classify_error: priority-ordered substring rules over the lowercased
error text. -/
def classify_error (error : String) : ErrorKind :=
  if lowerContains error "blockhash"
      || lowerContains error "block height exceeded"
      || lowerContains error "transaction has already been processed" then
    .BlockhashExpired
  else if lowerContains error "rate limit"
      || lowerContains error "too many requests"
      || lowerContains error "429" then
    .RateLimited
  else if lowerContains error "insufficient funds"
      || lowerContains error "insufficient lamports"
      || lowerContains error "invalid signature"
      || lowerContains error "invalid account"
      || lowerContains error "account not found"
      || lowerContains error "program failed"
      || lowerContains error "custom program error"
      || lowerContains error "simulation failed" then
    .Permanent
  else if lowerContains error "connection"
      || lowerContains error "timeout"
      || lowerContains error "network"
      || lowerContains error "temporary"
      || lowerContains error "try again" then
    .Retryable
  else
    .Retryable

/-- Retry configuration (transaction_retry.rs RetryConfig). -/
structure RetryConfig where
  max_send_retries : ℕ
  max_confirm_retries : ℕ
  base_delay_ms : ℕ
  max_delay_ms : ℕ
  poll_interval_ms : ℕ
  jitter : Bool
  deriving DecidableEq, Repr

/-- Default retry configuration. -/
def RetryConfig.default : RetryConfig where
  max_send_retries := 5
  max_confirm_retries := 30
  base_delay_ms := 500
  max_delay_ms := 10000
  poll_interval_ms := 1000
  jitter := true

/-- u64 maximum, the saturation bound of saturating u64 arithmetic. -/
def U64_MAX : ℕ := 2 ^ 64 - 1

/-- The value produced by rand_simple: (subsecond nanos mod 1000) / 1000,
an exact rational in place of the f64.  The nanosecond reading is the
free input r. -/
def rand_simple_val (r : ℕ) : ℚ := ((r % 1000 : ℕ) : ℚ) / 1000

/-- calculate_delay: exponential backoff with saturating u64 arithmetic,
capped at max_delay_ms, with an optional jitter factor of
1 + rand_simple() * 0.5 applied by f64 multiplication and truncation back
to u64.  The random input is passed explicitly as r. -/
def calculate_delay (attempt : ℕ) (config : RetryConfig) (r : ℕ) : ℕ :=
  let multiplier := min (2 ^ min attempt 63) U64_MAX
  let base_delay := min (config.base_delay_ms * multiplier) U64_MAX
  let capped_delay := min base_delay config.max_delay_ms
  if config.jitter then
    ratToU64 ((capped_delay : ℚ) * (1 + rand_simple_val r * (1/2)))
  else
    capped_delay

/-- Transaction send result (transaction_retry.rs SendResult); signatures
are modelled as natural numbers. -/
inductive SendResult where
  | Confirmed (sig : ℕ)
  | PermanentFailure (msg : String)
  | RetryableFailure (msg : String)
  | ConfirmationTimeout (sig : ℕ)
  deriving DecidableEq, Repr

/-- Outcome of one rpc.send_transaction call. -/
inductive SendOutcome where
  | ok (sig : ℕ)
  | err (msg : String)
  deriving DecidableEq, Repr

/-- The error message of a send outcome (empty for a success). -/
def SendOutcome.errMsg : SendOutcome → String
  | .ok _ => ""
  | .err e => e

/-- An outcome is non-terminal when the retry loop continues past it:
a send error classified Retryable or RateLimited. -/
def SendOutcome.nonTerminal : SendOutcome → Bool
  | .ok _ => false
  | .err e =>
    match classify_error e with
    | .Retryable => true
    | .RateLimited => true
    | _ => false

/-- The log of one loop iteration of send_with_retry: the backoff sleep
performed before the send (absent on attempt 0), the send outcome, and the
extra rate-limit sleep performed after a RateLimited error. -/
structure AttemptLog where
  backoffSleep : Option ℕ
  outcome : SendOutcome
  rateLimitSleep : Option ℕ
  deriving DecidableEq, Repr

/-- The terminal message of the exhausted retry loop. -/
def maxRetriesMsg (config : RetryConfig) (last_error : String) : String :=
  "Max retries (" ++ toString config.max_send_retries
    ++ ") exceeded. Last error: " ++ last_error

/-- The body of TransactionSender::send_with_retry, by remaining fuel.
outcomes gives the result of the rpc send on each attempt index, and rand
the nanosecond reading consumed by calculate_delay before that attempt. -/
def sendAux (config : RetryConfig) (outcomes : ℕ → SendOutcome) (rand : ℕ → ℕ) :
    ℕ → ℕ → String → SendResult × List AttemptLog
  | 0, _, last_error => (.RetryableFailure (maxRetriesMsg config last_error), [])
  | fuel + 1, attempt, _ =>
    let back : Option ℕ :=
      if attempt > 0 then some (calculate_delay (attempt - 1) config (rand attempt))
      else none
    match outcomes attempt with
    | .ok sig => (.Confirmed sig, [⟨back, .ok sig, none⟩])
    | .err e =>
      match classify_error e with
      | .Permanent => (.PermanentFailure e, [⟨back, .err e, none⟩])
      | .BlockhashExpired =>
        (.RetryableFailure "Blockhash expired - refresh required",
          [⟨back, .err e, none⟩])
      | .RateLimited =>
        let rest := sendAux config outcomes rand fuel (attempt + 1) e
        (rest.1, ⟨back, .err e, some config.max_delay_ms⟩ :: rest.2)
      | .Retryable =>
        let rest := sendAux config outcomes rand fuel (attempt + 1) e
        (rest.1, ⟨back, .err e, none⟩ :: rest.2)

/-- TransactionSender::send_with_retry: runs up to max_send_retries
attempts starting from attempt 0 with empty last error. -/
def send_with_retry (config : RetryConfig) (outcomes : ℕ → SendOutcome)
    (rand : ℕ → ℕ) : SendResult × List AttemptLog :=
  sendAux config outcomes rand config.max_send_retries 0 ""

/-- The log the loop must produce for attempt i: no backoff sleep before
attempt 0 and a backoff of calculate_delay (i-1) before attempt i > 0, the
send outcome of attempt i, and an extra max_delay_ms sleep exactly after a
RateLimited-classified error. -/
def expectedLog (config : RetryConfig) (rand : ℕ → ℕ)
    (outcomes : ℕ → SendOutcome) (i : ℕ) : AttemptLog where
  backoffSleep :=
    if i > 0 then some (calculate_delay (i - 1) config (rand i)) else none
  outcome := outcomes i
  rateLimitSleep :=
    match outcomes i with
    | .err e =>
      match classify_error e with
      | .RateLimited => some config.max_delay_ms
      | _ => none
    | .ok _ => none

/-- Outcome of one rpc.get_signature_status call. -/
inductive StatusOutcome where
  /-- Ok (Some (Ok ())) : transaction succeeded on chain. -/
  | confirmed
  /-- Ok (Some (Err e)) : transaction failed on chain. -/
  | failed (e : String)
  /-- Ok None : not yet confirmed. -/
  | pending
  /-- Err e : RPC error while checking status. -/
  | rpcErr (e : String)
  deriving DecidableEq, Repr

/-- A status outcome that ends the polling loop. -/
def StatusOutcome.decided : StatusOutcome → Bool
  | .confirmed => true
  | .failed _ => true
  | .pending => false
  | .rpcErr _ => false

/-- The body of TransactionSender::poll_confirmation, by remaining fuel.
Returns the verdict together with the list of sleeps performed, one
poll_interval_ms sleep at the top of every iteration. -/
def pollAux (config : RetryConfig) (status : ℕ → StatusOutcome) (sig : ℕ) :
    ℕ → ℕ → SendResult × List ℕ
  | 0, _ => (.ConfirmationTimeout sig, [])
  | fuel + 1, attempt =>
    match status attempt with
    | .confirmed => (.Confirmed sig, [config.poll_interval_ms])
    | .failed e =>
      (.PermanentFailure ("Transaction failed: " ++ e), [config.poll_interval_ms])
    | .pending =>
      let rest := pollAux config status sig fuel (attempt + 1)
      (rest.1, config.poll_interval_ms :: rest.2)
    | .rpcErr _ =>
      let rest := pollAux config status sig fuel (attempt + 1)
      (rest.1, config.poll_interval_ms :: rest.2)

/-- TransactionSender::poll_confirmation. -/
def poll_confirmation (config : RetryConfig) (status : ℕ → StatusOutcome)
    (sig : ℕ) : SendResult × List ℕ :=
  pollAux config status sig config.max_confirm_retries 0

/-- TransactionSender::send_and_confirm_with_retry: send, then poll for
confirmation only when the send result is Confirmed. -/
def send_and_confirm_with_retry (config : RetryConfig)
    (outcomes : ℕ → SendOutcome) (rand : ℕ → ℕ)
    (status : ℕ → StatusOutcome) : SendResult :=
  match (send_with_retry config outcomes rand).1 with
  | .Confirmed sig => (poll_confirmation config status sig).1
  | other => other

/-- send_result_to_result: collapse a SendResult into Except, with
ConfirmationTimeout mapped to the success branch. -/
def send_result_to_result (result : SendResult) : Except String ℕ :=
  match result with
  | .Confirmed sig => .ok sig
  | .PermanentFailure msg => .error ("Transaction failed: " ++ msg)
  | .RetryableFailure msg => .error ("Transaction failed after retries: " ++ msg)
  | .ConfirmationTimeout sig => .ok sig

/-! ## Protocol codec (src/crates/operator-core/src/agenc_program.rs) -/

/-- Task account discriminator: first 8 bytes of SHA256 of "global:Task". -/
def TASK_DISCRIMINATOR : List ℕ := [0x4f, 0x22, 0xe5, 0x37, 0x58, 0x5a, 0x37, 0x54]

/-- Offset of the status byte within a Task account. -/
def TASK_STATUS_OFFSET : ℕ := 154

/-- On-chain task state (agenc_program.rs OnChainTaskState). -/
inductive OnChainTaskState where
  | Open
  | InProgress
  | PendingValidation
  | Completed
  | Cancelled
  | Disputed
  deriving DecidableEq, Repr

/-- The enum discriminant of a task state (the value of the Rust
integer-repr enum, used when re-encoding a state as a byte). -/
def OnChainTaskState.toByte : OnChainTaskState → ℕ
  | .Open => 0
  | .InProgress => 1
  | .PendingValidation => 2
  | .Completed => 3
  | .Cancelled => 4
  | .Disputed => 5

/-- OnChainTaskState::from_byte: decode a state byte, rejecting unknown
values with a typed error. -/
def OnChainTaskState.from_byte (b : ℕ) : Except String OnChainTaskState :=
  match b with
  | 0 => .ok .Open
  | 1 => .ok .InProgress
  | 2 => .ok .PendingValidation
  | 3 => .ok .Completed
  | 4 => .ok .Cancelled
  | 5 => .ok .Disputed
  | _ => .error ("Invalid task state byte: " ++ toString b)

/-- The bytes of a buffer from index a (inclusive) to b (exclusive),
as in a Rust slice data[a..b]. -/
def byteSlice (data : List ℕ) (a b : ℕ) : List ℕ := (data.drop a).take (b - a)

/-- Little-endian decoding of a byte list into a natural number
(u64::from_le_bytes on an 8-byte slice). -/
def leToNat (bs : List ℕ) : ℕ := bs.foldr (fun b acc => b + 256 * acc) 0

/-- Little-endian decoding of an 8-byte list as a signed 64-bit integer
in two's complement (i64::from_le_bytes). -/
def leToInt64 (bs : List ℕ) : ℤ :=
  let n := leToNat bs
  if n < 2 ^ 63 then (n : ℤ) else (n : ℤ) - 2 ^ 64

/-- Deserialized AgenC task (agenc_program.rs OnChainTask).  Pubkeys are
kept as their 32 raw bytes; the base58 display string is elided. -/
structure OnChainTask where
  task_id : ℕ
  pda : List ℕ
  creator : List ℕ
  escrow_account : List ℕ
  required_capabilities : ℕ
  description_hash : List ℕ
  constraint_hash : List ℕ
  state : OnChainTaskState
  reward_lamports : ℕ
  reward_skr_tokens : ℕ
  deadline : ℤ
  claimed_by : Option (List ℕ)
  deriving DecidableEq, Repr

/-- OnChainTask::from_account_data: reject short buffers and mismatched
discriminators, decode the fixed-offset fields, and parse the trailing
fields only when the buffer is long enough, defaulting them otherwise. -/
def OnChainTask.from_account_data (data : List ℕ) (pda : List ℕ) :
    Except String OnChainTask :=
  if data.length < 160 then
    .error ("Account data too short: " ++ toString data.length ++ " bytes")
  else if byteSlice data 0 8 ≠ TASK_DISCRIMINATOR then
    .error "Discriminator mismatch"
  else
    match OnChainTaskState.from_byte (data.getD TASK_STATUS_OFFSET 0) with
    | .error e => .error e
    | .ok st =>
      .ok
        { task_id := leToNat (byteSlice data 8 16)
          pda := pda
          creator := byteSlice data 16 48
          escrow_account := byteSlice data 48 80
          required_capabilities := leToNat (byteSlice data 80 88)
          description_hash := byteSlice data 88 120
          constraint_hash := byteSlice data 120 152
          state := st
          reward_lamports :=
            if 163 ≤ data.length then leToNat (byteSlice data 155 163) else 0
          deadline :=
            if 171 ≤ data.length then leToInt64 (byteSlice data 163 171) else 0
          claimed_by :=
            if 204 ≤ data.length ∧ data.getD 171 0 = 1 then
              some (byteSlice data 172 204)
            else none
          reward_skr_tokens :=
            if 212 ≤ data.length then leToNat (byteSlice data 204 212) else 0 }

/-! ## Access tiers (src/crates/operator-core/src/access/types.rs, gate.rs) -/

/-- Token decimals for TETSUO. -/
def TETSUO_DECIMALS : ℕ := 6

/-- Tier thresholds in display units. -/
def TIER_BASIC_THRESHOLD : ℚ := 10000

def TIER_PRO_THRESHOLD : ℚ := 100000

def TIER_WHALE_THRESHOLD : ℚ := 1000000

/-- Access tiers (access/types.rs AccessTier). -/
inductive AccessTier where
  | None
  | Basic
  | Pro
  | Whale
  | Diamond
  deriving DecidableEq, Repr

/-- The numeric rank used by the Ord implementation for AccessTier. -/
def AccessTier.rank : AccessTier → ℕ
  | .None => 0
  | .Basic => 1
  | .Pro => 2
  | .Whale => 3
  | .Diamond => 4

/-- AccessTier::from_balance: display amount against fixed thresholds,
highest tier first. -/
def AccessTier.from_balance (balance : ℕ) (decimals : ℕ) : AccessTier :=
  let amount : ℚ := (balance : ℚ) / 10 ^ decimals
  if amount ≥ TIER_WHALE_THRESHOLD then .Whale
  else if amount ≥ TIER_PRO_THRESHOLD then .Pro
  else if amount ≥ TIER_BASIC_THRESHOLD then .Basic
  else .None

/-- Cache duration default in seconds. -/
def DEFAULT_CACHE_DURATION_SECS : ℤ := 300

/-- Maximum number of entries in the tier cache. -/
def MAX_CACHE_SIZE : ℕ := 1000

/-- Cached tier information (access/gate.rs CachedTier). -/
structure CachedTier where
  tier : AccessTier
  balance : ℕ
  cached_at : ℤ
  deriving DecidableEq, Repr

/-- The mutable state of an AccessGate: the tier cache (a hash map from
wallet strings to cached tiers, modelled as an association list with a
generic key type) plus the configured cache duration. -/
structure AccessGateState (κ : Type) where
  cache : List (κ × CachedTier)
  cache_duration_secs : ℤ

/-- Map lookup (HashMap::get on the wallet key). -/
def lookupEntry [BEq κ] (cache : List (κ × CachedTier)) (w : κ) :
    Option CachedTier :=
  (cache.find? (fun p => p.1 == w)).map Prod.snd

/-- Map insertion (HashMap::insert): replace the entry in place when the
key is present, append otherwise. -/
def insertEntry [BEq κ] (cache : List (κ × CachedTier)) (w : κ)
    (e : CachedTier) : List (κ × CachedTier) :=
  match cache with
  | [] => [(w, e)]
  | p :: rest =>
    if p.1 == w then (w, e) :: rest else p :: insertEntry rest w e

/-- Map removal (HashMap::remove): drop the entry with the given key. -/
def eraseEntry [BEq κ] (cache : List (κ × CachedTier)) (w : κ) :
    List (κ × CachedTier) :=
  cache.eraseP (fun p => p.1 == w)

/-- One step of the minimum scan: keep the entry with the smaller
cached_at, the earlier one on ties. -/
def olderOf (acc : Option (κ × CachedTier)) (p : κ × CachedTier) :
    Option (κ × CachedTier) :=
  match acc with
  | none => some p
  | some q => if p.2.cached_at < q.2.cached_at then some p else some q

/-- The entry with the minimal cached_at, first such entry on ties
(Iterator::min_by_key over the map entries). -/
def oldestEntry (cache : List (κ × CachedTier)) : Option (κ × CachedTier) :=
  cache.foldl olderOf none

/-- Result of one AccessGate::check_access call: the returned tier and
balance, the updated state, and whether the balance oracle was queried. -/
structure CheckAccessResult (κ : Type) where
  tier : AccessTier
  balance : ℕ
  state : AccessGateState κ
  queriedOracle : Bool

/-- The miss path of AccessGate::check_access: query the balance oracle,
evict the oldest entry when the cache is at capacity, and insert the
fresh entry at time now. -/
def checkAccessMiss [BEq κ] (oracle : κ → ℕ) (now : ℤ) (w : κ)
    (s : AccessGateState κ) : CheckAccessResult κ :=
  let balance := oracle w
  let tier := AccessTier.from_balance balance TETSUO_DECIMALS
  let cache1 :=
    if s.cache.length ≥ MAX_CACHE_SIZE then
      match oldestEntry s.cache with
      | some q => eraseEntry s.cache q.1
      | none => s.cache
    else s.cache
  let cache2 := insertEntry cache1 w ⟨tier, balance, now⟩
  ⟨tier, balance, { s with cache := cache2 }, true⟩

/-- AccessGate::check_access: return the cached entry when it is within
the TTL, and take the miss path otherwise. -/
def check_access [BEq κ] (oracle : κ → ℕ) (now : ℤ) (w : κ)
    (s : AccessGateState κ) : CheckAccessResult κ :=
  match lookupEntry s.cache w with
  | some cached =>
    if now - cached.cached_at < s.cache_duration_secs then
      ⟨cached.tier, cached.balance, s, false⟩
    else checkAccessMiss oracle now w s
  | none => checkAccessMiss oracle now w s

/-- AccessGate::invalidate_cache. -/
def invalidate_cache [BEq κ] (w : κ) (s : AccessGateState κ) :
    AccessGateState κ :=
  { s with cache := eraseEntry s.cache w }

/-- AccessGate::clear_cache. -/
def clear_cache (s : AccessGateState κ) : AccessGateState κ :=
  { s with cache := [] }

/-- The cache-touching operations of an AccessGate. -/
inductive CacheOp (κ : Type) where
  | check (now : ℤ) (w : κ)
  | invalidate (w : κ)
  | clear

/-- State transition of the gate under one operation, for a fixed balance
oracle. -/
def cacheStep [BEq κ] (oracle : κ → ℕ) (s : AccessGateState κ) :
    CacheOp κ → AccessGateState κ
  | .check now w => (check_access oracle now w s).state
  | .invalidate w => invalidate_cache w s
  | .clear => clear_cache s

/-- The confirmation strength the spec claims for an allowed spending
action, written from the claim text (to be compared with the nested
branching of check_spending_action): Verbal for amounts within the
voice-only maximum when voice-only-small is enabled; else Hardware for
amounts above the large threshold when hardware_for_large is enabled and
a device is attached; else Typed for such amounts without a device; else
Typed when always_require_typed is configured and Verbal otherwise. -/
def claimedConfirmation (cfg : PolicyConfig) (hw : Bool) (a : ℚ) : ConfirmationType :=
  if a ≤ cfg.voice_only_max_sol ∧ cfg.allow_voice_only_small then .Verbal
  else if (a > cfg.large_threshold_sol ∧ cfg.hardware_for_large) ∧ hw then .Hardware
  else if (a > cfg.large_threshold_sol ∧ cfg.hardware_for_large) ∧ hw = false then .Typed
  else if cfg.always_require_typed then .Typed
  else .Verbal

/-! ## Helper lemmas -/

/-- check_spending_action, characterized for amounts that are a whole
number of lamports: the session-ceiling denial is decided by the exact
projected total, and the allowed branch produces the claimed confirmation
strength. -/
theorem check_spending_action_char (g : PolicyGate) (i : VoiceIntent)
    (name : String) (n : ℕ)
    (hlam : PolicyGate.extract_sol_amount i.params * 1000000000 = (n : ℚ)) :
    (((g.session_spending_lamports : ℚ) / 1000000000
        + PolicyGate.extract_sol_amount i.params > SESSION_LIMIT_SOL
        ∧ g.hardware_wallet_connected = false) →
      (g.check_spending_action i name).allowed = false
      ∧ (g.check_spending_action i name).requires_confirmation = true
      ∧ (g.check_spending_action i name).confirmation_type = .Hardware) ∧
    (¬ ((g.session_spending_lamports : ℚ) / 1000000000
        + PolicyGate.extract_sol_amount i.params > SESSION_LIMIT_SOL
        ∧ g.hardware_wallet_connected = false) →
      (g.check_spending_action i name).allowed = true
      ∧ (g.check_spending_action i name).requires_confirmation = true
      ∧ (g.check_spending_action i name).confirmation_type =
          claimedConfirmation g.config g.hardware_wallet_connected
            (PolicyGate.extract_sol_amount i.params)) := by
  have hfloor : ratToU64 (PolicyGate.extract_sol_amount i.params * 1000000000) = n := by
    rw [hlam, ratToU64, Int.floor_natCast, Int.toNat_natCast]
  have ha : PolicyGate.extract_sol_amount i.params = (n : ℚ) / 1000000000 := by
    rw [eq_div_iff (by norm_num : (1000000000 : ℚ) ≠ 0)]
    exact hlam
  have hsum : ((g.session_spending_lamports + n : ℕ) : ℚ) / 1000000000
      = (g.session_spending_lamports : ℚ) / 1000000000
        + PolicyGate.extract_sol_amount i.params := by
    rw [ha]
    push_cast
    ring
  constructor
  · rintro ⟨hgt, hhw⟩
    have hc : ((g.session_spending_lamports
        + ratToU64 (PolicyGate.extract_sol_amount i.params * 1000000000) : ℕ) : ℚ)
          / 1000000000 > SESSION_LIMIT_SOL ∧ ¬ (g.hardware_wallet_connected = true) := by
      rw [hfloor, hsum]
      exact ⟨hgt, by simp [hhw]⟩
    simp only [PolicyGate.check_spending_action]
    rw [if_pos hc]
    exact ⟨rfl, rfl, rfl⟩
  · intro hcond
    have hc : ¬ (((g.session_spending_lamports
        + ratToU64 (PolicyGate.extract_sol_amount i.params * 1000000000) : ℕ) : ℚ)
          / 1000000000 > SESSION_LIMIT_SOL ∧ ¬ (g.hardware_wallet_connected = true)) := by
      rw [hfloor, hsum]
      intro ⟨h1, h2⟩
      exact hcond ⟨h1, by simpa using h2⟩
    simp only [PolicyGate.check_spending_action]
    rw [if_neg hc]
    split_ifs with h2 h3 h4 h5 <;>
      simp_all [claimedConfirmation] <;>
      split_ifs <;>
      simp_all

/-- check_policy reduces to check_spending_action on an unblocked
create-task intent. -/
theorem check_policy_createtask (g : PolicyGate) (p : IntentParams)
    (hblk : IntentAction.CreateTask.debugLower ∉ g.config.blocked_actions) :
    g.check_policy ⟨.CreateTask, p⟩
      = g.check_spending_action ⟨.CreateTask, p⟩ "create task" := by
  simp only [PolicyGate.check_policy]
  rw [if_neg hblk]

/-- check_policy reduces to check_spending_action on an unblocked
token-swap intent. -/
theorem check_policy_swaptokens (g : PolicyGate) (p : IntentParams)
    (hblk : IntentAction.SwapTokens.debugLower ∉ g.config.blocked_actions) :
    g.check_policy ⟨.SwapTokens, p⟩
      = g.check_spending_action ⟨.SwapTokens, p⟩ "token swap" := by
  simp only [PolicyGate.check_policy]
  rw [if_neg hblk]

/-- C1: for an unblocked spending intent (create-task or token-swap) whose
amount is a whole number of lamports, check_policy denies with Hardware
confirmation exactly when the projected session total exceeds the
10-SOL ceiling and no hardware wallet is attached, and otherwise allows
with the claimed confirmation strength; in particular, after recording
9 SOL of spending, a 2-SOL create-task is denied with Hardware
confirmation without a hardware wallet and allowed with one. -/
theorem check_spending_policy_spec (g : PolicyGate) (act : IntentAction)
    (p : IntentParams) (n : ℕ)
    (hact : act = .CreateTask ∨ act = .SwapTokens)
    (hblk : act.debugLower ∉ g.config.blocked_actions)
    (hlam : PolicyGate.extract_sol_amount p * 1000000000 = (n : ℚ)) :
    (((g.session_spending_lamports : ℚ) / 1000000000
        + PolicyGate.extract_sol_amount p > SESSION_LIMIT_SOL
        ∧ g.hardware_wallet_connected = false) →
      (g.check_policy ⟨act, p⟩).allowed = false
      ∧ (g.check_policy ⟨act, p⟩).requires_confirmation = true
      ∧ (g.check_policy ⟨act, p⟩).confirmation_type = .Hardware) ∧
    (¬ ((g.session_spending_lamports : ℚ) / 1000000000
        + PolicyGate.extract_sol_amount p > SESSION_LIMIT_SOL
        ∧ g.hardware_wallet_connected = false) →
      (g.check_policy ⟨act, p⟩).allowed = true
      ∧ (g.check_policy ⟨act, p⟩).requires_confirmation = true
      ∧ (g.check_policy ⟨act, p⟩).confirmation_type =
          claimedConfirmation g.config g.hardware_wallet_connected
            (PolicyGate.extract_sol_amount p)) ∧
    ((PolicyGate.new.record_spending 9000000000).check_policy
        ⟨.CreateTask, ⟨some 2, none, none⟩⟩).allowed = false ∧
    ((PolicyGate.new.record_spending 9000000000).check_policy
        ⟨.CreateTask, ⟨some 2, none, none⟩⟩).confirmation_type = .Hardware ∧
    (((PolicyGate.new.record_spending 9000000000).set_hardware_wallet true).check_policy
        ⟨.CreateTask, ⟨some 2, none, none⟩⟩).allowed = true := by
  have hmain :
      (((g.session_spending_lamports : ℚ) / 1000000000
          + PolicyGate.extract_sol_amount p > SESSION_LIMIT_SOL
          ∧ g.hardware_wallet_connected = false) →
        (g.check_policy ⟨act, p⟩).allowed = false
        ∧ (g.check_policy ⟨act, p⟩).requires_confirmation = true
        ∧ (g.check_policy ⟨act, p⟩).confirmation_type = .Hardware) ∧
      (¬ ((g.session_spending_lamports : ℚ) / 1000000000
          + PolicyGate.extract_sol_amount p > SESSION_LIMIT_SOL
          ∧ g.hardware_wallet_connected = false) →
        (g.check_policy ⟨act, p⟩).allowed = true
        ∧ (g.check_policy ⟨act, p⟩).requires_confirmation = true
        ∧ (g.check_policy ⟨act, p⟩).confirmation_type =
            claimedConfirmation g.config g.hardware_wallet_connected
              (PolicyGate.extract_sol_amount p)) := by
    rcases hact with rfl | rfl
    · rw [check_policy_createtask g p hblk]
      exact ⟨(check_spending_action_char g ⟨.CreateTask, p⟩ "create task" n hlam).1,
        (check_spending_action_char g ⟨.CreateTask, p⟩ "create task" n hlam).2⟩
    · rw [check_policy_swaptokens g p hblk]
      exact ⟨(check_spending_action_char g ⟨.SwapTokens, p⟩ "token swap" n hlam).1,
        (check_spending_action_char g ⟨.SwapTokens, p⟩ "token swap" n hlam).2⟩
  have hlam2 : PolicyGate.extract_sol_amount ⟨some 2, none, none⟩ * 1000000000
      = ((2000000000 : ℕ) : ℚ) := by
    norm_num [PolicyGate.extract_sol_amount]
  have hex12 := (check_spending_action_char (PolicyGate.new.record_spending 9000000000)
      ⟨.CreateTask, ⟨some 2, none, none⟩⟩ "create task" 2000000000 hlam2).1
    (by
      refine ⟨?_, rfl⟩
      norm_num [PolicyGate.new, PolicyGate.record_spending,
        PolicyGate.extract_sol_amount, SESSION_LIMIT_SOL])
  have hex3 := (check_spending_action_char
      ((PolicyGate.new.record_spending 9000000000).set_hardware_wallet true)
      ⟨.CreateTask, ⟨some 2, none, none⟩⟩ "create task" 2000000000 hlam2).2
    (by
      rintro ⟨-, hf⟩
      exact absurd hf (by simp [PolicyGate.new, PolicyGate.record_spending,
        PolicyGate.set_hardware_wallet]))
  refine ⟨hmain.1, hmain.2, ?_, ?_, ?_⟩
  · rw [check_policy_createtask _ _ (by decide)]
    exact hex12.1
  · rw [check_policy_createtask _ _ (by decide)]
    exact hex12.2.2
  · rw [check_policy_createtask _ _ (by decide)]
    exact hex3.1

/-- C1 counterexample: for an amount that is not a whole number of
lamports the claim as stated fails.  With no prior spending, no hardware
wallet and a requested amount of 10 + 10^-10 SOL, the exact projected
total S + a exceeds the 10-SOL ceiling, so the claim requires a denial,
but the code truncates the amount to lamports, computes a projected total
of exactly 10 SOL, and allows the action. -/
theorem check_spending_policy_subLamport_cex :
    (((PolicyGate.new.session_spending_lamports : ℚ) / 1000000000
        + PolicyGate.extract_sol_amount ⟨some (10 + 1/10000000000), none, none⟩
          > SESSION_LIMIT_SOL
        ∧ PolicyGate.new.hardware_wallet_connected = false)) ∧
    (PolicyGate.new.check_policy
      ⟨.CreateTask, ⟨some (10 + 1/10000000000), none, none⟩⟩).allowed = true := by
  constructor
  · constructor
    · norm_num [PolicyGate.extract_sol_amount, PolicyGate.new, SESSION_LIMIT_SOL]
    · rfl
  · rw [check_policy_createtask _ _ (by decide)]
    have hval : PolicyGate.extract_sol_amount
        (⟨some (10 + 1/10000000000), none, none⟩ : IntentParams) * 1000000000
        = 10000000000 + 1/10 := by
      norm_num [PolicyGate.extract_sol_amount]
      try ring
    have hfl : ratToU64 (PolicyGate.extract_sol_amount
        (⟨some (10 + 1/10000000000), none, none⟩ : IntentParams) * 1000000000)
        = 10000000000 := by
      rw [hval, ratToU64]
      have hfloor10 : ⌊(10000000000 + 1/10 : ℚ)⌋ = 10000000000 := by
        rw [Int.floor_eq_iff]
        norm_num
      rw [hfloor10]
      rfl
    simp only [PolicyGate.check_spending_action, hfl]
    split_ifs with h1 <;> try rfl
    exfalso
    have h2 := h1.1
    norm_num [PolicyGate.new, SESSION_LIMIT_SOL] at h2

/-- C1 witness: the concrete session-limit scenario extracted by applying
the theorem at the 9-SOL gate and 2-SOL create-task intent. -/
theorem check_spending_policy_spec_witness :
    ((PolicyGate.new.record_spending 9000000000).check_policy
        ⟨.CreateTask, ⟨some 2, none, none⟩⟩).allowed = false ∧
    ((PolicyGate.new.record_spending 9000000000).check_policy
        ⟨.CreateTask, ⟨some 2, none, none⟩⟩).confirmation_type = .Hardware ∧
    (((PolicyGate.new.record_spending 9000000000).set_hardware_wallet true).check_policy
        ⟨.CreateTask, ⟨some 2, none, none⟩⟩).allowed = true :=
  (check_spending_policy_spec (PolicyGate.new.record_spending 9000000000)
    .CreateTask ⟨some 2, none, none⟩ 2000000000 (Or.inl rfl) (by decide)
    (by norm_num [PolicyGate.extract_sol_amount])).2.2

/-! ## Helper lemmas (send retry loop) -/

/-- The send loop performs at most fuel attempts. -/
theorem sendAux_length (c : RetryConfig) (o : ℕ → SendOutcome) (r : ℕ → ℕ) :
    ∀ fuel att last, (sendAux c o r fuel att last).2.length ≤ fuel := by
  intro fuel
  induction fuel with
  | zero => intro att last; simp [sendAux]
  | succ f ih =>
    intro att last
    have h1 := ih (att + 1)
    rcases h : o att with sig | e
    · simp [sendAux, h]
    · have h2 := h1 e
      cases hk : classify_error e <;> simp [sendAux, h, hk] <;> omega

/-- Each iteration of the send loop logs the expected backoff sleep, the
send outcome of its attempt index, and the expected rate-limit sleep. -/
theorem sendAux_get (c : RetryConfig) (o : ℕ → SendOutcome) (r : ℕ → ℕ) :
    ∀ fuel att last k, k < (sendAux c o r fuel att last).2.length →
      (sendAux c o r fuel att last).2.get? k = some (expectedLog c r o (att + k)) := by
  intro fuel
  induction fuel with
  | zero => intro att last k hk; simp [sendAux] at hk
  | succ f ih =>
    intro att last k hk
    rcases h : o att with sig | e
    · have hk0 : k = 0 := by
        simp [sendAux, h] at hk
        omega
      subst hk0
      simp [sendAux, h, expectedLog]
    · cases hcl : classify_error e
      case Permanent =>
        have hk0 : k = 0 := by
          simp [sendAux, h, hcl] at hk
          omega
        subst hk0
        simp [sendAux, h, hcl, expectedLog]
      case BlockhashExpired =>
        have hk0 : k = 0 := by
          simp [sendAux, h, hcl] at hk
          omega
        subst hk0
        simp [sendAux, h, hcl, expectedLog]
      case Retryable =>
        cases k with
        | zero => simp [sendAux, h, hcl, expectedLog]
        | succ k =>
          have hk' : k < (sendAux c o r f (att + 1) e).2.length := by
            simp [sendAux, h, hcl] at hk
            omega
          have hih := ih (att + 1) e k hk'
          rw [show att + 1 + k = att + (k + 1) by omega] at hih
          simp [sendAux, h, hcl]
          simpa using hih
      case RateLimited =>
        cases k with
        | zero => simp [sendAux, h, hcl, expectedLog]
        | succ k =>
          have hk' : k < (sendAux c o r f (att + 1) e).2.length := by
            simp [sendAux, h, hcl] at hk
            omega
          have hih := ih (att + 1) e k hk'
          rw [show att + 1 + k = att + (k + 1) by omega] at hih
          simp [sendAux, h, hcl]
          simpa using hih

/-- Running the send loop past d non-terminal attempts. -/
theorem sendAux_reach (c : RetryConfig) (o : ℕ → SendOutcome) (r : ℕ → ℕ) :
    ∀ d fuel att last, (∀ j, j < d → (o (att + j)).nonTerminal = true) → d < fuel →
      (sendAux c o r fuel att last).1 =
        (sendAux c o r (fuel - d) (att + d)
          (if d = 0 then last else (o (att + d - 1)).errMsg)).1 := by
  intro d
  induction d with
  | zero => intro fuel att last hnt hd; simp
  | succ d ih =>
    intro fuel att last hnt hd
    obtain ⟨f, rfl⟩ : ∃ f, fuel = f + 1 := ⟨fuel - 1, by omega⟩
    have h0 : (o att).nonTerminal = true := by simpa using hnt 0 (by omega)
    rcases h : o att with sig | e
    · rw [h] at h0
      simp [SendOutcome.nonTerminal] at h0
    · rw [h] at h0
      have step : (sendAux c o r (f + 1) att last).1 =
          (sendAux c o r f (att + 1) e).1 := by
        cases hcl : classify_error e <;>
          simp [SendOutcome.nonTerminal, hcl] at h0 <;> simp [sendAux, h, hcl]
      have hnt' : ∀ j, j < d → (o (att + 1 + j)).nonTerminal = true := by
        intro j hj
        have hh := hnt (j + 1) (by omega)
        rwa [show att + (j + 1) = att + 1 + j by omega] at hh
      rw [step, ih f (att + 1) e hnt' (by omega),
        show f - d = f + 1 - (d + 1) by omega,
        show att + 1 + d = att + (d + 1) by omega]
      congr 1
      rcases Nat.eq_zero_or_pos d with rfl | hdpos
      · simp [h, SendOutcome.errMsg]
      · rw [if_neg (by omega), if_neg (by omega),
          show att + (d + 1) - 1 = att + (d + 1 - 1) by omega]

/-- An exhausted send loop reports the last error. -/
theorem sendAux_exhaust (c : RetryConfig) (o : ℕ → SendOutcome) (r : ℕ → ℕ) :
    ∀ fuel att last, (∀ j, j < fuel → (o (att + j)).nonTerminal = true) →
      (sendAux c o r fuel att last).1 =
        .RetryableFailure (maxRetriesMsg c
          (if fuel = 0 then last else (o (att + fuel - 1)).errMsg)) := by
  intro fuel
  induction fuel with
  | zero => intro att last h; simp [sendAux]
  | succ f ih =>
    intro att last h
    have h0 : (o att).nonTerminal = true := by simpa using h 0 (by omega)
    rcases ho : o att with sig | e
    · rw [ho] at h0
      simp [SendOutcome.nonTerminal] at h0
    · rw [ho] at h0
      have step : (sendAux c o r (f + 1) att last).1 =
          (sendAux c o r f (att + 1) e).1 := by
        cases hcl : classify_error e <;>
          simp [SendOutcome.nonTerminal, hcl] at h0 <;> simp [sendAux, ho, hcl]
      rw [step, ih (att + 1) e (fun j hj => by
        have hh := h (j + 1) (by omega)
        rwa [show att + (j + 1) = att + 1 + j by omega] at hh)]
      rcases Nat.eq_zero_or_pos f with rfl | hf
      · simp [ho, SendOutcome.errMsg]
      · rw [if_neg (by omega), if_neg (by omega),
          show att + 1 + f - 1 = att + (f + 1) - 1 by omega]

/-! ## Helper lemmas (confirmation polling) -/

/-- The polling loop performs at most fuel checks. -/
theorem pollAux_length (c : RetryConfig) (st : ℕ → StatusOutcome) (sig : ℕ) :
    ∀ fuel att, (pollAux c st sig fuel att).2.length ≤ fuel := by
  intro fuel
  induction fuel with
  | zero => intro att; simp [pollAux]
  | succ f ih =>
    intro att
    have h1 := ih (att + 1)
    rcases hst : st att with _ | e | _ | e <;> simp [pollAux, hst] <;> omega

/-- Every sleep of the polling loop is one poll interval. -/
theorem pollAux_sleeps (c : RetryConfig) (st : ℕ → StatusOutcome) (sig : ℕ) :
    ∀ fuel att x, x ∈ (pollAux c st sig fuel att).2 → x = c.poll_interval_ms := by
  intro fuel
  induction fuel with
  | zero => intro att x hx; simp [pollAux] at hx
  | succ f ih =>
    intro att x hx
    rcases hst : st att with _ | e | _ | e
    · simpa [pollAux, hst] using hx
    · simpa [pollAux, hst] using hx
    · simp [pollAux, hst] at hx
      rcases hx with rfl | hx
      · rfl
      · exact ih (att + 1) x hx
    · simp [pollAux, hst] at hx
      rcases hx with rfl | hx
      · rfl
      · exact ih (att + 1) x hx

/-- Running the polling loop past d undecided checks (pending statuses and
RPC errors alike only consume an attempt). -/
theorem pollAux_reach (c : RetryConfig) (st : ℕ → StatusOutcome) (sig : ℕ) :
    ∀ d fuel att, (∀ j, j < d → (st (att + j)).decided = false) → d ≤ fuel →
      (pollAux c st sig fuel att).1 = (pollAux c st sig (fuel - d) (att + d)).1 := by
  intro d
  induction d with
  | zero => intro fuel att h hd; simp
  | succ d ih =>
    intro fuel att h hd
    obtain ⟨f, rfl⟩ : ∃ f, fuel = f + 1 := ⟨fuel - 1, by omega⟩
    have h0 : (st att).decided = false := by simpa using h 0 (by omega)
    have step : (pollAux c st sig (f + 1) att).1 = (pollAux c st sig f (att + 1)).1 := by
      rcases hst : st att with _ | e | _ | e <;> rw [hst] at h0 <;>
        simp [StatusOutcome.decided] at h0 <;> simp [pollAux, hst]
    rw [step, ih f (att + 1) (fun j hj => by
        have hh := h (j + 1) (by omega)
        rwa [show att + (j + 1) = att + 1 + j by omega] at hh) (by omega),
      show f - d = f + 1 - (d + 1) by omega,
      show att + 1 + d = att + (d + 1) by omega]

/-! ## Helper lemmas (tier cache) -/

section CacheLemmas

variable {κ : Type} [BEq κ] [LawfulBEq κ]

/-- Lookup distributes over cons. -/
theorem lookupEntry_cons (p : κ × CachedTier) (rest : List (κ × CachedTier)) (w : κ) :
    lookupEntry (p :: rest) w =
      if p.1 == w then some p.2 else lookupEntry rest w := by
  by_cases h : (p.1 == w) = true <;>
    simp [lookupEntry, List.find?_cons_of_pos, List.find?_cons_of_neg, h]

/-- Inserting a key makes it immediately retrievable. -/
theorem lookupEntry_insertEntry_self (cache : List (κ × CachedTier)) (w : κ)
    (e : CachedTier) :
    lookupEntry (insertEntry cache w e) w = some e := by
  induction cache with
  | nil => simp [insertEntry, lookupEntry_cons]
  | cons p rest ih =>
    by_cases h : (p.1 == w) = true
    · simp [insertEntry, h, lookupEntry_cons]
    · simp [insertEntry, h, lookupEntry_cons, ih]

/-- Inserting an absent key appends the new entry. -/
theorem insertEntry_of_lookup_none (cache : List (κ × CachedTier)) (w : κ)
    (e : CachedTier) (h : lookupEntry cache w = none) :
    insertEntry cache w e = cache ++ [(w, e)] := by
  induction cache with
  | nil => simp [insertEntry]
  | cons p rest ih =>
    rw [lookupEntry_cons] at h
    by_cases hp : (p.1 == w) = true
    · simp [hp] at h
    · simp only [hp] at h
      simp only [insertEntry, hp, if_neg]
      simp [ih (by simpa using h)]

/-- Insertion grows the cache by at most one entry. -/
theorem insertEntry_length_le (cache : List (κ × CachedTier)) (w : κ)
    (e : CachedTier) :
    (insertEntry cache w e).length ≤ cache.length + 1 := by
  induction cache with
  | nil => simp [insertEntry]
  | cons p rest ih =>
    by_cases h : (p.1 == w) = true
    · simp [insertEntry, h]
    · simp [insertEntry, h]
      omega

/-- A key absent from the cache is still absent after an erasure. -/
theorem lookupEntry_eraseEntry_none (cache : List (κ × CachedTier)) (w k : κ)
    (h : lookupEntry cache w = none) :
    lookupEntry (eraseEntry cache k) w = none := by
  simp only [lookupEntry, Option.map_eq_none', List.find?_eq_none] at h ⊢
  intro x hx
  exact h x (List.eraseP_subset _ hx)

/-- The minimum scan started from a candidate returns an entry no older
than the candidate and no older than any scanned entry. -/
theorem olderOf_foldl (cache : List (κ × CachedTier)) :
    ∀ a : κ × CachedTier, ∃ q, cache.foldl olderOf (some a) = some q ∧
      (q = a ∨ q ∈ cache) ∧ q.2.cached_at ≤ a.2.cached_at ∧
      ∀ p ∈ cache, q.2.cached_at ≤ p.2.cached_at := by
  induction cache with
  | nil =>
    intro a
    exact ⟨a, rfl, Or.inl rfl, le_refl _, by simp⟩
  | cons p rest ih =>
    intro a
    by_cases hlt : p.2.cached_at < a.2.cached_at
    · obtain ⟨q, hq, hmem, hle, hall⟩ := ih p
      refine ⟨q, ?_, ?_, le_trans hle (le_of_lt hlt), ?_⟩
      · simpa [olderOf, hlt] using hq
      · rcases hmem with rfl | hm
        · exact Or.inr (by simp)
        · exact Or.inr (by simp [hm])
      · intro x hx
        rcases List.mem_cons.mp hx with rfl | hx
        · exact hle
        · exact hall x hx
    · obtain ⟨q, hq, hmem, hle, hall⟩ := ih a
      refine ⟨q, ?_, ?_, hle, ?_⟩
      · simpa [olderOf, hlt] using hq
      · rcases hmem with rfl | hm
        · exact Or.inl rfl
        · exact Or.inr (by simp [hm])
      · intro x hx
        rcases List.mem_cons.mp hx with rfl | hx
        · exact le_trans hle (not_lt.mp hlt)
        · exact hall x hx

/-- A nonempty cache has an oldest entry, and it attains the minimal
cached_at. -/
theorem oldestEntry_spec (p : κ × CachedTier) (rest : List (κ × CachedTier)) :
    ∃ q, oldestEntry (p :: rest) = some q ∧ q ∈ p :: rest ∧
      ∀ x ∈ p :: rest, q.2.cached_at ≤ x.2.cached_at := by
  obtain ⟨q, hq, hmem, hle, hall⟩ := olderOf_foldl rest p
  refine ⟨q, ?_, ?_, ?_⟩
  · simpa [oldestEntry, olderOf] using hq
  · rcases hmem with rfl | hm
    · exact List.mem_cons_self _ _
    · exact List.mem_cons_of_mem _ hm
  · intro x hx
    rcases List.mem_cons.mp hx with rfl | hx
    · exact hle
    · exact hall x hx

/-- When one entry is strictly older than every other entry, the minimum
scan returns exactly that entry. -/
theorem oldestEntry_unique (cache : List (κ × CachedTier)) (m : κ × CachedTier)
    (hm : m ∈ cache)
    (hmin : ∀ p ∈ cache, p ≠ m → m.2.cached_at < p.2.cached_at) :
    oldestEntry cache = some m := by
  cases cache with
  | nil => simp at hm
  | cons p rest =>
    obtain ⟨q, hq, hqmem, hqall⟩ := oldestEntry_spec p rest
    by_cases hqm : q = m
    · rwa [hqm] at hq
    · have h1 := hmin q hqmem hqm
      have h2 := hqall m hm
      omega

/-- The miss path never grows the cache beyond capacity. -/
theorem checkAccessMiss_length (oracle : κ → ℕ) (now : ℤ) (w : κ)
    (s : AccessGateState κ) (h : s.cache.length ≤ MAX_CACHE_SIZE) :
    (checkAccessMiss oracle now w s).state.cache.length ≤ MAX_CACHE_SIZE := by
  by_cases hcap : s.cache.length ≥ MAX_CACHE_SIZE
  · cases hc : s.cache with
    | nil =>
      rw [hc] at hcap
      simp [MAX_CACHE_SIZE] at hcap
    | cons p rest =>
      obtain ⟨q, hq, hqmem, -⟩ := oldestEntry_spec p rest
      rw [← hc] at hq hqmem
      have herase : (eraseEntry s.cache q.1).length + 1 = s.cache.length := by
        unfold eraseEntry
        exact List.length_eraseP_add_one hqmem (by simp)
      have hins := insertEntry_length_le (eraseEntry s.cache q.1) w
        ⟨AccessTier.from_balance (oracle w) TETSUO_DECIMALS, oracle w, now⟩
      have hstate : (checkAccessMiss oracle now w s).state.cache
          = insertEntry (eraseEntry s.cache q.1) w
            ⟨AccessTier.from_balance (oracle w) TETSUO_DECIMALS, oracle w, now⟩ := by
        simp only [checkAccessMiss]
        rw [if_pos hcap, hq]
      rw [hstate]
      omega
  · have hins := insertEntry_length_le s.cache w
      ⟨AccessTier.from_balance (oracle w) TETSUO_DECIMALS, oracle w, now⟩
    have hstate : (checkAccessMiss oracle now w s).state.cache
        = insertEntry s.cache w
          ⟨AccessTier.from_balance (oracle w) TETSUO_DECIMALS, oracle w, now⟩ := by
      simp only [checkAccessMiss]
      rw [if_neg hcap]
    rw [hstate]
    omega

/-- check_access never grows the cache beyond capacity. -/
theorem check_access_length (oracle : κ → ℕ) (now : ℤ) (w : κ)
    (s : AccessGateState κ) (h : s.cache.length ≤ MAX_CACHE_SIZE) :
    (check_access oracle now w s).state.cache.length ≤ MAX_CACHE_SIZE := by
  unfold check_access
  cases hl : lookupEntry s.cache w with
  | none => exact checkAccessMiss_length oracle now w s h
  | some ce =>
    by_cases ht : now - ce.cached_at < s.cache_duration_secs
    · simpa [ht] using h
    · simpa [ht] using checkAccessMiss_length oracle now w s h

/-- A check_access call that queried the oracle took the miss path. -/
theorem check_access_queried (oracle : κ → ℕ) (now : ℤ) (w : κ)
    (s : AccessGateState κ)
    (h : (check_access oracle now w s).queriedOracle = true) :
    check_access oracle now w s = checkAccessMiss oracle now w s := by
  unfold check_access at h ⊢
  cases hl : lookupEntry s.cache w with
  | none => rfl
  | some ce =>
    rw [hl] at h
    by_cases ht : now - ce.cached_at < s.cache_duration_secs
    · simp [ht] at h
    · simp [ht]

end CacheLemmas

/-! ## Helper lemmas (codec) -/

/-- Decoding a valid state byte succeeds and re-encoding recovers it. -/
theorem from_byte_ok_of_le (b : ℕ) (hb : b ≤ 5) :
    ∃ st, OnChainTaskState.from_byte b = .ok st ∧ st.toByte = b := by
  interval_cases b
  · exact ⟨.Open, rfl, rfl⟩
  · exact ⟨.InProgress, rfl, rfl⟩
  · exact ⟨.PendingValidation, rfl, rfl⟩
  · exact ⟨.Completed, rfl, rfl⟩
  · exact ⟨.Cancelled, rfl, rfl⟩
  · exact ⟨.Disputed, rfl, rfl⟩

/-! ## Claim theorems -/

/-- C10: send_result_to_result returns Ok with the signature for both
Confirmed and ConfirmationTimeout, and Err for PermanentFailure and
RetryableFailure — an Ok from this helper does not imply confirmation. -/
theorem send_result_to_result_spec :
    (∀ sig : ℕ, send_result_to_result (.Confirmed sig) = .ok sig) ∧
    (∀ sig : ℕ, send_result_to_result (.ConfirmationTimeout sig) = .ok sig) ∧
    (∀ msg : String, send_result_to_result (.PermanentFailure msg) =
      .error ("Transaction failed: " ++ msg)) ∧
    (∀ msg : String, send_result_to_result (.RetryableFailure msg) =
      .error ("Transaction failed after retries: " ++ msg)) :=
  ⟨fun _ => rfl, fun _ => rfl, fun _ => rfl, fun _ => rfl⟩

/-- C9: for every byte 0 through 5, from_byte succeeds and the decoded
state re-encodes (via its enum discriminant) to the same byte; every byte
greater than 5 is rejected with an error. -/
theorem from_byte_spec (b : ℕ) :
    (b ≤ 5 → ∃ st, OnChainTaskState.from_byte b = .ok st ∧ st.toByte = b) ∧
    (6 ≤ b → ∃ e, OnChainTaskState.from_byte b = .error e) := by
  refine ⟨from_byte_ok_of_le b, fun hb => ?_⟩
  obtain ⟨c, rfl⟩ : ∃ c, b = c + 6 := ⟨b - 6, by omega⟩
  exact ⟨_, rfl⟩

/-- C9 witness: bytes 3 and 6 instantiate both halves. -/
theorem from_byte_spec_witness :
    (∃ st, OnChainTaskState.from_byte 3 = .ok st ∧ st.toByte = 3) ∧
    (∃ e, OnChainTaskState.from_byte 6 = .error e) :=
  ⟨(from_byte_spec 3).1 (by decide), (from_byte_spec 6).2 (by decide)⟩

/-- C8: check_policy leaves the gate state (session spending total and
hardware flag) unchanged, and the session spending counter is changed
only by record_spending (adding the amount) and reset_session (zeroing). -/
theorem gate_frame_spec (g : PolicyGate) :
    (∀ intent, gateStep g (.checkPolicy intent) = g) ∧
    (∀ op, (gateStep g op).session_spending_lamports =
      (match op with
       | .recordSpending n => g.session_spending_lamports + n
       | .resetSession => 0
       | _ => g.session_spending_lamports)) ∧
    (∀ intent, (gateStep g (.checkPolicy intent)).hardware_wallet_connected
        = g.hardware_wallet_connected) := by
  refine ⟨fun _ => rfl, fun op => ?_, fun _ => rfl⟩
  cases op <;> rfl

/-- C7: from_balance compares the display amount balance / 10 ^ decimals
against the descending thresholds 1000000, 100000, 10000, never returns
Diamond, and is monotone in the balance under the rank order
None < Basic < Pro < Whale < Diamond. -/
theorem from_balance_spec :
    (∀ balance decimals : ℕ,
      AccessTier.from_balance balance decimals =
        (if (balance : ℚ) / 10 ^ decimals ≥ 1000000 then .Whale
         else if (balance : ℚ) / 10 ^ decimals ≥ 100000 then .Pro
         else if (balance : ℚ) / 10 ^ decimals ≥ 10000 then .Basic
         else .None)) ∧
    (∀ balance decimals : ℕ, AccessTier.from_balance balance decimals ≠ .Diamond) ∧
    (∀ b b' d : ℕ, b ≤ b' →
      (AccessTier.from_balance b d).rank ≤ (AccessTier.from_balance b' d).rank) ∧
    (AccessTier.None.rank < AccessTier.Basic.rank ∧
     AccessTier.Basic.rank < AccessTier.Pro.rank ∧
     AccessTier.Pro.rank < AccessTier.Whale.rank ∧
     AccessTier.Whale.rank < AccessTier.Diamond.rank) := by
  refine ⟨fun _ _ => rfl, fun balance decimals => ?_, fun b b' d h => ?_, by decide⟩
  · simp only [AccessTier.from_balance]
    split_ifs <;> simp
  · have hd : (0 : ℚ) < 10 ^ d := by positivity
    have hm : (b : ℚ) / 10 ^ d ≤ (b' : ℚ) / 10 ^ d := by gcongr
    simp only [AccessTier.from_balance, TIER_BASIC_THRESHOLD, TIER_PRO_THRESHOLD,
      TIER_WHALE_THRESHOLD]
    split_ifs <;> simp only [AccessTier.rank] <;> linarith

/-- C7 witness: instantiation of the monotonicity part at balances
10000000000 and 1000000000000 with 6 decimals. -/
theorem from_balance_spec_witness :
    (AccessTier.from_balance 10000000000 6).rank ≤
      (AccessTier.from_balance 1000000000000 6).rank :=
  from_balance_spec.2.2.1 10000000000 1000000000000 6 (by norm_num)

/-- C4: classify_error lowercases the text and applies the substring rules
in priority order (blockhash phrases, then rate-limit phrases, then
permanent phrases, then Retryable for everything else including
unrecognized strings), with the five spec examples. -/
theorem classify_error_spec (s : String) :
    (classify_error s = .BlockhashExpired ↔
      (lowerContains s "blockhash" || lowerContains s "block height exceeded"
        || lowerContains s "transaction has already been processed") = true) ∧
    (classify_error s = .RateLimited ↔
      (lowerContains s "blockhash" || lowerContains s "block height exceeded"
        || lowerContains s "transaction has already been processed") = false ∧
      (lowerContains s "rate limit" || lowerContains s "too many requests"
        || lowerContains s "429") = true) ∧
    (classify_error s = .Permanent ↔
      (lowerContains s "blockhash" || lowerContains s "block height exceeded"
        || lowerContains s "transaction has already been processed") = false ∧
      (lowerContains s "rate limit" || lowerContains s "too many requests"
        || lowerContains s "429") = false ∧
      (lowerContains s "insufficient funds" || lowerContains s "insufficient lamports"
        || lowerContains s "invalid signature" || lowerContains s "invalid account"
        || lowerContains s "account not found" || lowerContains s "program failed"
        || lowerContains s "custom program error"
        || lowerContains s "simulation failed") = true) ∧
    (classify_error s = .Retryable ↔
      (lowerContains s "blockhash" || lowerContains s "block height exceeded"
        || lowerContains s "transaction has already been processed") = false ∧
      (lowerContains s "rate limit" || lowerContains s "too many requests"
        || lowerContains s "429") = false ∧
      (lowerContains s "insufficient funds" || lowerContains s "insufficient lamports"
        || lowerContains s "invalid signature" || lowerContains s "invalid account"
        || lowerContains s "account not found" || lowerContains s "program failed"
        || lowerContains s "custom program error"
        || lowerContains s "simulation failed") = false) ∧
    classify_error "insufficient funds for transaction" = .Permanent ∧
    classify_error "Blockhash not found" = .BlockhashExpired ∧
    classify_error "rate limit exceeded" = .RateLimited ∧
    classify_error "connection refused" = .Retryable ∧
    classify_error "unknown error xyz" = .Retryable := by
  refine ⟨?_, ?_, ?_, ?_, by decide, by decide, by decide, by decide, by decide⟩ <;>
    (unfold classify_error;
      cases h1 : (lowerContains s "blockhash" || lowerContains s "block height exceeded"
        || lowerContains s "transaction has already been processed") <;>
      cases h2 : (lowerContains s "rate limit" || lowerContains s "too many requests"
        || lowerContains s "429") <;>
      cases h3 : (lowerContains s "insufficient funds" || lowerContains s "insufficient lamports"
        || lowerContains s "invalid signature" || lowerContains s "invalid account"
        || lowerContains s "account not found" || lowerContains s "program failed"
        || lowerContains s "custom program error"
        || lowerContains s "simulation failed") <;>
      simp [h1, h2, h3])

/-- C4 witness: the characterization applied to a concrete string. -/
theorem classify_error_spec_witness :
    classify_error "blockhash too old" = .BlockhashExpired :=
  (classify_error_spec "blockhash too old").1.mpr (by decide)

/-- C3: from_account_data returns a typed error whenever the buffer is
shorter than 160 bytes or the first 8 bytes differ from the Task
discriminator; for buffers of length at least 160 with a matching
discriminator and a valid state byte at offset 154, decode succeeds with
the fixed-offset fields, the trailing fields (reward, deadline,
claimed_by, SKR reward) being parsed only when the buffer is long enough
and defaulting to zero/absent otherwise. -/
theorem from_account_data_spec (data pda : List ℕ) :
    (data.length < 160 →
      ∃ e, OnChainTask.from_account_data data pda = .error e) ∧
    (byteSlice data 0 8 ≠ TASK_DISCRIMINATOR →
      ∃ e, OnChainTask.from_account_data data pda = .error e) ∧
    (160 ≤ data.length → byteSlice data 0 8 = TASK_DISCRIMINATOR →
      data.getD TASK_STATUS_OFFSET 0 ≤ 5 →
      ∃ t, OnChainTask.from_account_data data pda = .ok t
        ∧ t.task_id = leToNat (byteSlice data 8 16)
        ∧ t.pda = pda
        ∧ t.creator = byteSlice data 16 48
        ∧ t.escrow_account = byteSlice data 48 80
        ∧ t.required_capabilities = leToNat (byteSlice data 80 88)
        ∧ t.description_hash = byteSlice data 88 120
        ∧ t.constraint_hash = byteSlice data 120 152
        ∧ t.state.toByte = data.getD TASK_STATUS_OFFSET 0
        ∧ t.reward_lamports =
            (if 163 ≤ data.length then leToNat (byteSlice data 155 163) else 0)
        ∧ t.deadline =
            (if 171 ≤ data.length then leToInt64 (byteSlice data 163 171) else 0)
        ∧ t.claimed_by =
            (if 204 ≤ data.length ∧ data.getD 171 0 = 1 then
              some (byteSlice data 172 204) else none)
        ∧ t.reward_skr_tokens =
            (if 212 ≤ data.length then leToNat (byteSlice data 204 212) else 0)) := by
  refine ⟨fun h => ?_, fun h => ?_, fun hlen hdisc hstate => ?_⟩
  · exact ⟨_, by rw [OnChainTask.from_account_data, if_pos h]⟩
  · by_cases hl : data.length < 160
    · exact ⟨_, by rw [OnChainTask.from_account_data, if_pos hl]⟩
    · exact ⟨_, by rw [OnChainTask.from_account_data, if_neg hl, if_pos h]⟩
  · obtain ⟨st, hst, henc⟩ := from_byte_ok_of_le _ hstate
    refine ⟨{ task_id := leToNat (byteSlice data 8 16)
              pda := pda
              creator := byteSlice data 16 48
              escrow_account := byteSlice data 48 80
              required_capabilities := leToNat (byteSlice data 80 88)
              description_hash := byteSlice data 88 120
              constraint_hash := byteSlice data 120 152
              state := st
              reward_lamports :=
                if 163 ≤ data.length then leToNat (byteSlice data 155 163) else 0
              deadline :=
                if 171 ≤ data.length then leToInt64 (byteSlice data 163 171) else 0
              claimed_by :=
                if 204 ≤ data.length ∧ data.getD 171 0 = 1 then
                  some (byteSlice data 172 204)
                else none
              reward_skr_tokens :=
                if 212 ≤ data.length then leToNat (byteSlice data 204 212) else 0 },
      ?_, rfl, rfl, rfl, rfl, rfl, rfl, rfl, henc, rfl, rfl, rfl, rfl⟩
    rw [OnChainTask.from_account_data, if_neg (by omega), if_neg (by simp [hdisc]),
      hst]

/-- C3 witness: a minimal 160-byte buffer with matching discriminator and
state byte 0 decodes, and the empty buffer is rejected. -/
theorem from_account_data_spec_witness :
    (∃ e, OnChainTask.from_account_data [] [] = .error e) ∧
    (∃ t, OnChainTask.from_account_data
        (TASK_DISCRIMINATOR ++ List.replicate 152 0) [] = .ok t
      ∧ t.task_id = leToNat (byteSlice (TASK_DISCRIMINATOR ++ List.replicate 152 0) 8 16)
      ∧ t.pda = []
      ∧ t.creator = byteSlice (TASK_DISCRIMINATOR ++ List.replicate 152 0) 16 48
      ∧ t.escrow_account = byteSlice (TASK_DISCRIMINATOR ++ List.replicate 152 0) 48 80
      ∧ t.required_capabilities
          = leToNat (byteSlice (TASK_DISCRIMINATOR ++ List.replicate 152 0) 80 88)
      ∧ t.description_hash = byteSlice (TASK_DISCRIMINATOR ++ List.replicate 152 0) 88 120
      ∧ t.constraint_hash = byteSlice (TASK_DISCRIMINATOR ++ List.replicate 152 0) 120 152
      ∧ t.state.toByte = (TASK_DISCRIMINATOR ++ List.replicate 152 0).getD TASK_STATUS_OFFSET 0
      ∧ t.reward_lamports =
          (if 163 ≤ (TASK_DISCRIMINATOR ++ List.replicate 152 0).length then
            leToNat (byteSlice (TASK_DISCRIMINATOR ++ List.replicate 152 0) 155 163) else 0)
      ∧ t.deadline =
          (if 171 ≤ (TASK_DISCRIMINATOR ++ List.replicate 152 0).length then
            leToInt64 (byteSlice (TASK_DISCRIMINATOR ++ List.replicate 152 0) 163 171) else 0)
      ∧ t.claimed_by =
          (if 204 ≤ (TASK_DISCRIMINATOR ++ List.replicate 152 0).length
              ∧ (TASK_DISCRIMINATOR ++ List.replicate 152 0).getD 171 0 = 1 then
            some (byteSlice (TASK_DISCRIMINATOR ++ List.replicate 152 0) 172 204) else none)
      ∧ t.reward_skr_tokens =
          (if 212 ≤ (TASK_DISCRIMINATOR ++ List.replicate 152 0).length then
            leToNat (byteSlice (TASK_DISCRIMINATOR ++ List.replicate 152 0) 204 212) else 0)) :=
  ⟨(from_account_data_spec [] []).1 (by decide),
   (from_account_data_spec (TASK_DISCRIMINATOR ++ List.replicate 152 0) []).2.2
     (by decide) (by decide) (by decide)⟩

set_option maxHeartbeats 1600000 in
/-- C2: send_with_retry performs at most max_send_retries attempts; the
sleep before attempt i > 0 is calculate_delay (i-1) (min of base · 2^(i-1)
and max_delay, jitter-scaled by a factor in [1.0, 1.5) when enabled, so
that without jitter base 500 / max 10000 gives 500, 1000, 2000, 4000,
8000 ms for attempts 0-4 and 10000 ms for attempt 10); it returns
Confirmed on the first successful send, PermanentFailure immediately on
the first Permanent error, RetryableFailure immediately on the first
BlockhashExpired error, sleeps a full max_delay after a RateLimited
error, and after exhausting all attempts returns RetryableFailure with
the last error message. -/
theorem send_with_retry_spec (c : RetryConfig) (o : ℕ → SendOutcome) (r : ℕ → ℕ) :
    (send_with_retry c o r).2.length ≤ c.max_send_retries ∧
    (∀ k, k < (send_with_retry c o r).2.length →
      (send_with_retry c o r).2.get? k = some (expectedLog c r o k)) ∧
    (∀ cfg : RetryConfig, cfg.jitter = false → cfg.base_delay_ms = 500 →
      cfg.max_delay_ms = 10000 → ∀ j : ℕ,
      calculate_delay 0 cfg j = 500 ∧ calculate_delay 1 cfg j = 1000 ∧
      calculate_delay 2 cfg j = 2000 ∧ calculate_delay 3 cfg j = 4000 ∧
      calculate_delay 4 cfg j = 8000 ∧ calculate_delay 10 cfg j = 10000) ∧
    (∀ cfg : RetryConfig, cfg.jitter = true → ∀ att j,
      calculate_delay att { cfg with jitter := false } j ≤ calculate_delay att cfg j ∧
      (0 < calculate_delay att { cfg with jitter := false } j →
        2 * calculate_delay att cfg j <
          3 * calculate_delay att { cfg with jitter := false } j)) ∧
    (∀ i sig, i < c.max_send_retries → (∀ j, j < i → (o j).nonTerminal = true) →
      o i = .ok sig → (send_with_retry c o r).1 = .Confirmed sig) ∧
    (∀ i e, i < c.max_send_retries → (∀ j, j < i → (o j).nonTerminal = true) →
      o i = .err e → classify_error e = .Permanent →
      (send_with_retry c o r).1 = .PermanentFailure e) ∧
    (∀ i e, i < c.max_send_retries → (∀ j, j < i → (o j).nonTerminal = true) →
      o i = .err e → classify_error e = .BlockhashExpired →
      (send_with_retry c o r).1 =
        .RetryableFailure "Blockhash expired - refresh required") ∧
    ((∀ j, j < c.max_send_retries → (o j).nonTerminal = true) →
      (send_with_retry c o r).1 = .RetryableFailure (maxRetriesMsg c
        (if c.max_send_retries = 0 then ""
         else (o (c.max_send_retries - 1)).errMsg))) := by
  have hreach : ∀ i, i < c.max_send_retries → (∀ j, j < i → (o j).nonTerminal = true) →
      (send_with_retry c o r).1 =
        (sendAux c o r (c.max_send_retries - i) i
          (if i = 0 then "" else (o (i - 1)).errMsg)).1 := by
    intro i hi hnt
    have := sendAux_reach c o r i c.max_send_retries 0 "" (by simpa using hnt) hi
    simpa [send_with_retry] using this
  refine ⟨?_, ?_, ?_, ?_, ?_, ?_, ?_, ?_⟩
  · exact sendAux_length c o r _ 0 ""
  · intro k hk
    simpa using sendAux_get c o r c.max_send_retries 0 "" k hk
  · intro cfg h1 h2 h3 j
    refine ⟨?_, ?_, ?_, ?_, ?_, ?_⟩ <;>
      simp only [calculate_delay, h1, h2, h3, U64_MAX] <;> norm_num
  · intro cfg hjit att j
    have hbase : calculate_delay att { cfg with jitter := false } j =
        min (min (cfg.base_delay_ms * min (2 ^ min att 63) U64_MAX) U64_MAX)
          cfg.max_delay_ms := by
      simp [calculate_delay]
    set capped := min (min (cfg.base_delay_ms * min (2 ^ min att 63) U64_MAX) U64_MAX)
      cfg.max_delay_ms with hcapped
    have hdel : calculate_delay att cfg j =
        ratToU64 ((capped : ℚ) * (1 + rand_simple_val j * (1 / 2))) := by
      simp [calculate_delay, hjit, hcapped]
    have hr0 : (0 : ℚ) ≤ rand_simple_val j := by
      unfold rand_simple_val
      positivity
    have hr1 : rand_simple_val j < 1 := by
      unfold rand_simple_val
      rw [div_lt_one (by norm_num)]
      exact_mod_cast Nat.mod_lt j (by norm_num)
    have hf1 : (1 : ℚ) ≤ 1 + rand_simple_val j * (1 / 2) := by linarith
    have hf2 : 1 + rand_simple_val j * (1 / 2) < 3 / 2 := by linarith
    have hx0 : (0 : ℚ) ≤ (capped : ℚ) * (1 + rand_simple_val j * (1 / 2)) := by
      positivity
    have hfl0 : 0 ≤ ⌊(capped : ℚ) * (1 + rand_simple_val j * (1 / 2))⌋ :=
      Int.floor_nonneg.mpr hx0
    constructor
    · rw [hbase, hdel, ratToU64]
      rw [Int.le_toNat hfl0]
      refine Int.le_floor.mpr ?_
      push_cast
      exact le_mul_of_one_le_right (by positivity) hf1
    · intro hpos
      rw [hbase] at hpos
      rw [hbase, hdel, ratToU64]
      have hle : (⌊(capped : ℚ) * (1 + rand_simple_val j * (1 / 2))⌋ : ℚ) ≤
          (capped : ℚ) * (1 + rand_simple_val j * (1 / 2)) := Int.floor_le _
      have hlt : (capped : ℚ) * (1 + rand_simple_val j * (1 / 2)) <
          (capped : ℚ) * (3 / 2) := by
        have : (0 : ℚ) < capped := by exact_mod_cast hpos
        exact mul_lt_mul_of_pos_left hf2 this
      have h2q : 2 * ((⌊(capped : ℚ) * (1 + rand_simple_val j * (1 / 2))⌋).toNat : ℚ) <
          3 * (capped : ℚ) := by
        have hnq := congrArg (fun z : ℤ => (z : ℚ)) (Int.toNat_of_nonneg hfl0)
        push_cast at hnq
        rw [hnq]
        linarith
      exact_mod_cast h2q
  · intro i sig hi hnt hok
    rw [hreach i hi hnt]
    obtain ⟨f, hf⟩ : ∃ f, c.max_send_retries - i = f + 1 := ⟨c.max_send_retries - i - 1, by omega⟩
    rw [hf]
    simp [sendAux, hok]
  · intro i e hi hnt herr hcl
    rw [hreach i hi hnt]
    obtain ⟨f, hf⟩ : ∃ f, c.max_send_retries - i = f + 1 := ⟨c.max_send_retries - i - 1, by omega⟩
    rw [hf]
    simp [sendAux, herr, hcl]
  · intro i e hi hnt herr hcl
    rw [hreach i hi hnt]
    obtain ⟨f, hf⟩ : ∃ f, c.max_send_retries - i = f + 1 := ⟨c.max_send_retries - i - 1, by omega⟩
    rw [hf]
    simp [sendAux, herr, hcl]
  · intro hnt
    have := sendAux_exhaust c o r c.max_send_retries 0 "" (by simpa using hnt)
    simpa [send_with_retry] using this

/-- C2 witness: with two retries and an immediately successful send, the
loop returns Confirmed with the signature. -/
theorem send_with_retry_spec_witness :
    (send_with_retry ⟨2, 1, 500, 10000, 1000, false⟩
      (fun _ => .ok 7) (fun _ => 0)).1 = .Confirmed 7 :=
  (send_with_retry_spec ⟨2, 1, 500, 10000, 1000, false⟩
      (fun _ => .ok 7) (fun _ => 0)).2.2.2.2.1 0 7 (by decide)
    (fun j hj => absurd hj (Nat.not_lt_zero j)) rfl

/-- C5: poll_confirmation sleeps one poll interval before every status
check and performs at most max_confirm_retries checks; it returns
Confirmed on the first observed on-chain success, PermanentFailure on the
first observed on-chain rejection, and ConfirmationTimeout with the
signature after exhausting all attempts; an RPC error from a status check
only consumes one attempt, and send_and_confirm_with_retry returns the
send result unchanged unless it is Confirmed, in which case it polls
confirmation for the returned signature. -/
theorem poll_confirmation_spec (c : RetryConfig) (st : ℕ → StatusOutcome)
    (sig : ℕ) (o : ℕ → SendOutcome) (r : ℕ → ℕ) :
    (poll_confirmation c st sig).2.length ≤ c.max_confirm_retries ∧
    (∀ x ∈ (poll_confirmation c st sig).2, x = c.poll_interval_ms) ∧
    (∀ i, i < c.max_confirm_retries → (∀ j, j < i → (st j).decided = false) →
      st i = .confirmed → (poll_confirmation c st sig).1 = .Confirmed sig) ∧
    (∀ i e, i < c.max_confirm_retries → (∀ j, j < i → (st j).decided = false) →
      st i = .failed e →
      (poll_confirmation c st sig).1 =
        .PermanentFailure ("Transaction failed: " ++ e)) ∧
    ((∀ j, j < c.max_confirm_retries → (st j).decided = false) →
      (poll_confirmation c st sig).1 = .ConfirmationTimeout sig) ∧
    (∀ i e, i < c.max_confirm_retries → (∀ j, j < i → (st j).decided = false) →
      st i = .rpcErr e →
      (poll_confirmation c st sig).1 =
        (pollAux c st sig (c.max_confirm_retries - (i + 1)) (i + 1)).1) ∧
    (∀ sig2, (send_with_retry c o r).1 = .Confirmed sig2 →
      send_and_confirm_with_retry c o r st = (poll_confirmation c st sig2).1) ∧
    ((∀ sig2, (send_with_retry c o r).1 ≠ .Confirmed sig2) →
      send_and_confirm_with_retry c o r st = (send_with_retry c o r).1) := by
  have hreach : ∀ i, i ≤ c.max_confirm_retries →
      (∀ j, j < i → (st j).decided = false) →
      (poll_confirmation c st sig).1 =
        (pollAux c st sig (c.max_confirm_retries - i) i).1 := by
    intro i hi hnd
    have := pollAux_reach c st sig i c.max_confirm_retries 0 (by simpa using hnd) hi
    simpa [poll_confirmation] using this
  refine ⟨pollAux_length c st sig _ 0, pollAux_sleeps c st sig _ 0, ?_, ?_, ?_, ?_, ?_, ?_⟩
  · intro i hi hnd hst
    rw [hreach i (by omega) hnd]
    obtain ⟨f, hf⟩ : ∃ f, c.max_confirm_retries - i = f + 1 :=
      ⟨c.max_confirm_retries - i - 1, by omega⟩
    rw [hf]
    simp [pollAux, hst]
  · intro i e hi hnd hst
    rw [hreach i (by omega) hnd]
    obtain ⟨f, hf⟩ : ∃ f, c.max_confirm_retries - i = f + 1 :=
      ⟨c.max_confirm_retries - i - 1, by omega⟩
    rw [hf]
    simp [pollAux, hst]
  · intro hnd
    rw [hreach c.max_confirm_retries (le_refl _) hnd]
    simp [pollAux]
  · intro i e hi hnd hst
    have hnd' : ∀ j, j < i + 1 → (st j).decided = false := by
      intro j hj
      rcases Nat.lt_or_ge j i with hji | hji
      · exact hnd j hji
      · have : j = i := by omega
        subst this
        rw [hst]
        rfl
    exact hreach (i + 1) (by omega) hnd'
  · intro sig2 h
    unfold send_and_confirm_with_retry
    rw [h]
  · intro h
    unfold send_and_confirm_with_retry
    rcases hres : (send_with_retry c o r).1 with s2 | m | m | s2
    · exact absurd hres (h s2)
    · rfl
    · rfl
    · rfl

/-- C5 witness: a status stream that confirms on the second check, after
one pending result. -/
theorem poll_confirmation_spec_witness :
    (poll_confirmation ⟨2, 5, 500, 10000, 1000, false⟩
      (fun i => if i = 0 then .pending else .confirmed) 9).1 = .Confirmed 9 :=
  (poll_confirmation_spec ⟨2, 5, 500, 10000, 1000, false⟩
      (fun i => if i = 0 then .pending else .confirmed) 9
      (fun _ => .ok 0) (fun _ => 0)).2.2.1 1 (by decide)
    (by
      intro j hj
      have : j = 0 := by omega
      subst this
      rfl)
    rfl

/-- C6: the tier cache never exceeds its capacity of 1000 entries under
any sequence of check_access / invalidate_cache / clear_cache operations;
a check_access within the TTL returns the cached tier and balance without
querying the balance oracle (so two calls for the same holder within the
TTL issue exactly one oracle query); and a miss while at capacity evicts
exactly the entry with the globally smallest cached_at before appending
the new entry, keeping the size at capacity for a distinct holder. -/
theorem tier_cache_spec {κ : Type} [BEq κ] [LawfulBEq κ] (oracle : κ → ℕ) :
    (∀ (ops : List (CacheOp κ)) (s : AccessGateState κ),
      s.cache.length ≤ MAX_CACHE_SIZE →
      (ops.foldl (cacheStep oracle) s).cache.length ≤ MAX_CACHE_SIZE) ∧
    (∀ (s : AccessGateState κ) (now : ℤ) (w : κ) (ce : CachedTier),
      lookupEntry s.cache w = some ce →
      now - ce.cached_at < s.cache_duration_secs →
      check_access oracle now w s = ⟨ce.tier, ce.balance, s, false⟩) ∧
    (∀ (s : AccessGateState κ) (t1 t2 : ℤ) (w : κ),
      (check_access oracle t1 w s).queriedOracle = true →
      t2 - t1 < s.cache_duration_secs →
      check_access oracle t2 w (check_access oracle t1 w s).state =
        ⟨(check_access oracle t1 w s).tier, (check_access oracle t1 w s).balance,
          (check_access oracle t1 w s).state, false⟩) ∧
    (∀ (s : AccessGateState κ) (now : ℤ) (w : κ) (m : κ × CachedTier),
      s.cache.length = MAX_CACHE_SIZE →
      lookupEntry s.cache w = none →
      m ∈ s.cache →
      (∀ p ∈ s.cache, p ≠ m → m.2.cached_at < p.2.cached_at) →
      (check_access oracle now w s).state.cache =
        eraseEntry s.cache m.1 ++
          [(w, ⟨AccessTier.from_balance (oracle w) TETSUO_DECIMALS, oracle w, now⟩)] ∧
      (check_access oracle now w s).state.cache.length = MAX_CACHE_SIZE) := by
  refine ⟨?_, ?_, ?_, ?_⟩
  · intro ops
    induction ops with
    | nil => intro s h; simpa using h
    | cons op rest ih =>
      intro s h
      rw [List.foldl_cons]
      refine ih _ ?_
      cases op with
      | check now w => exact check_access_length oracle now w s h
      | invalidate w =>
        have h2 : (eraseEntry s.cache w).length ≤ s.cache.length :=
          List.length_eraseP_le s.cache
        exact le_trans h2 h
      | clear => exact Nat.zero_le _
  · intro s now w ce hl ht
    unfold check_access
    rw [hl]
    simp [ht]
  · intro s t1 t2 w hq ht
    have h1 : check_access oracle t1 w s = checkAccessMiss oracle t1 w s :=
      check_access_queried oracle t1 w s hq
    rw [h1]
    have hlook : lookupEntry (checkAccessMiss oracle t1 w s).state.cache w
        = some ⟨AccessTier.from_balance (oracle w) TETSUO_DECIMALS, oracle w, t1⟩ := by
      simp only [checkAccessMiss]
      exact lookupEntry_insertEntry_self _ w _
    unfold check_access
    rw [hlook]
    simp only [checkAccessMiss]
    simp [ht]
  · intro s now w m hlen hw hm hmin
    have hmiss : check_access oracle now w s = checkAccessMiss oracle now w s := by
      unfold check_access
      rw [hw]
    have hold : oldestEntry s.cache = some m := oldestEntry_unique s.cache m hm hmin
    have hcap : s.cache.length ≥ MAX_CACHE_SIZE := by omega
    have hc1none : lookupEntry (eraseEntry s.cache m.1) w = none :=
      lookupEntry_eraseEntry_none s.cache w m.1 hw
    have hstate : (checkAccessMiss oracle now w s).state.cache
        = insertEntry (eraseEntry s.cache m.1) w
          ⟨AccessTier.from_balance (oracle w) TETSUO_DECIMALS, oracle w, now⟩ := by
      simp only [checkAccessMiss]
      rw [if_pos hcap, hold]
    have happend := insertEntry_of_lookup_none (eraseEntry s.cache m.1) w
      ⟨AccessTier.from_balance (oracle w) TETSUO_DECIMALS, oracle w, now⟩ hc1none
    have herase : (eraseEntry s.cache m.1).length + 1 = s.cache.length := by
      unfold eraseEntry
      exact List.length_eraseP_add_one hm (by simp)
    constructor
    · rw [hmiss, hstate, happend]
    · rw [hmiss, hstate, happend]
      simp only [List.length_append, List.length_singleton]
      omega

/-- C6 witness: a one-entry cache hit within the TTL, via the theorem at
natural-number keys. -/
theorem tier_cache_spec_witness :
    check_access (fun _ => 0) 20 5
        (⟨[(5, ⟨.Basic, 7, 10⟩)], 300⟩ : AccessGateState ℕ) =
      ⟨AccessTier.Basic, 7, ⟨[(5, ⟨.Basic, 7, 10⟩)], 300⟩, false⟩ :=
  (tier_cache_spec (fun _ => 0)).2.1 ⟨[(5, ⟨.Basic, 7, 10⟩)], 300⟩ 20 5
    ⟨.Basic, 7, 10⟩ (by decide) (by decide)

end AgenC
